import Mathlib

/-!
Shallow embedding of `src/neovim/src/nvim/buffer_updates.c`, the per-buffer
change-notification broker.  Channel identifiers (`uint64_t`) are modelled as
`Nat`, buffer handles and changedticks (`handle_T`, `varnumber_T`) as `Int`,
and buffer lines as byte lists (`List Nat`).  The RPC sink
(`rpc_send_event`) is modelled as a function `Nat → Bool` giving, per channel,
whether delivery succeeds; emitted events are collected into a trace list, and
`ELOG` calls into a list of logged channel ids.
-/

/-- A msgpack-RPC object value, as assembled by the C code into `Array args`
(`BUFFER_OBJ`, `INTEGER_OBJ`, `STRING_OBJ`, `ARRAY_OBJ`, `BOOLEAN_OBJ`, `NIL`). -/
inductive Obj : Type where
  | bufHandle : Int → Obj
  | int : Int → Obj
  | str : List Nat → Obj
  | arr : List Obj → Obj
  | boolean : Bool → Obj
  | nil : Obj

/-- One RPC notification emitted via `rpc_send_event`: target channel,
wire event name, positional arguments. -/
structure Event where
  channel : Nat
  name : String
  args : List Obj

/-- The buffer fields the broker reads: `handle`, `b_ml.ml_mfp != NULL`
(loaded), `b_changedtick`, and the line storage backing `ml_get_buf` /
`ml_line_count` (lines store embedded NULs as the byte 0x0A). -/
structure Buf where
  handle : Int
  loaded : Bool
  b_changedtick : Int
  lines : List (List Nat)

/-- `ml_get_buf(buf, lnum, false)`: the 1-based line `lnum` of the buffer. -/
def ml_get_buf (buf : Buf) (lnum : Int) : List Nat :=
  buf.lines.getD (lnum - 1).toNat []

/-- `strchrsub(s, '\n', '\0')`: replace every 0x0A byte by 0x00, on the
owned copy produced by `cstr_to_string`. -/
def strchrsub (s : List Nat) : List Nat :=
  s.map (fun b => if b = 10 then 0 else b)

/-- `buf_updates_register(buf, channel_id, send_buffer)`.  Returns the C
function's boolean result, the updated `buf->update_channels`, and the list
of events sent through `rpc_send_event`. -/
def buf_updates_register (buf : Buf) (channels : List Nat)
    (channel_id : Nat) (send_buffer : Bool) :
    Bool × List Nat × List Event :=
  if buf.loaded = false then
    (false, channels, [])
  else if channel_id ∈ channels then
    (true, channels, [])
  else
    let linedata : List Obj :=
      if send_buffer then
        (List.range buf.lines.length).map
          (fun (i : Nat) => Obj.str (strchrsub (ml_get_buf buf (1 + (i : Int)))))
      else []
    let args : List Obj :=
      [Obj.bufHandle buf.handle, Obj.int buf.b_changedtick,
       Obj.arr linedata, Obj.boolean false]
    (true, channels ++ [channel_id],
     [⟨channel_id, "nvim_buf_updates_start", args⟩])

/-- `buf_updates_send_end(buf, channelid)`: the detach notification. -/
def buf_updates_send_end (buf : Buf) (channelid : Nat) : Event :=
  ⟨channelid, "nvim_buf_updates_end", [Obj.bufHandle buf.handle]⟩

/-- The compaction loop of `buf_updates_unregister`: the surviving elements
in their original order, paired with the `found` counter. -/
def removeChannel : List Nat → Nat → List Nat × Nat
  | [], _ => ([], 0)
  | c :: rest, id =>
    let r := removeChannel rest id
    if c = id then (r.1, r.2 + 1) else (c :: r.1, r.2)

/-- `buf_updates_unregister(buf, channelid)`: updated channel list and
emitted events. -/
def buf_updates_unregister (buf : Buf) (channels : List Nat)
    (channelid : Nat) : List Nat × List Event :=
  if channels.length = 0 then (channels, [])
  else
    let r := removeChannel channels channelid
    if r.2 ≠ 0 then (r.1, [buf_updates_send_end buf channelid])
    else (channels, [])

/-- `buf_updates_unregister_all(buf)`: updated channel list and emitted
events. -/
def buf_updates_unregister_all (buf : Buf) (channels : List Nat) :
    List Nat × List Event :=
  if channels.length = 0 then (channels, [])
  else ([], channels.map (fun c => buf_updates_send_end buf c))

/-- The positional arguments of one `nvim_buf_update` notification, exactly
as `buf_updates_send_changes` assembles them for each channel. -/
def lines_changed_args (buf : Buf)
    (firstline num_added num_removed : Int) (send_tick : Bool) : List Obj :=
  let linedata : List Obj :=
    if 0 < num_added then
      (List.range num_added.toNat).map
        (fun (i : Nat) => Obj.str (strchrsub (ml_get_buf buf (firstline + (i : Int)))))
    else []
  [Obj.bufHandle buf.handle,
   if send_tick then Obj.int buf.b_changedtick else Obj.nil,
   Obj.int (firstline - 1),
   Obj.int (firstline - 1 + num_removed),
   Obj.arr linedata]

/-- The final value of the `badchannelid` scratch slot after the fan-out
loop: initialized to 0, overwritten by each channel whose send fails. -/
def lastBadChannel (sink : Nat → Bool) (channels : List Nat) : Nat :=
  channels.foldl (fun bad c => if sink c then bad else c) 0

/-- `buf_updates_send_changes(buf, firstline, num_added, num_removed,
send_tick)`.  Returns the updated channel list, the emitted events (the
fan-out notifications followed by the deferred unregister's detach, if any),
and the channel ids passed to `ELOG`. -/
def buf_updates_send_changes (buf : Buf) (channels : List Nat)
    (firstline num_added num_removed : Int) (send_tick : Bool)
    (sink : Nat → Bool) : List Nat × List Event × List Nat :=
  let fanout : List Event :=
    channels.map (fun c =>
      ⟨c, "nvim_buf_update",
       lines_changed_args buf firstline num_added num_removed send_tick⟩)
  let badchannelid := lastBadChannel sink channels
  if badchannelid ≠ 0 then
    let r := buf_updates_unregister buf channels badchannelid
    (r.1, fanout ++ r.2, [badchannelid])
  else
    (channels, fanout, [])

/-- `buf_updates_changedtick(buf)`: the emitted events (the channel list is
not touched and no dead-channel cleanup happens here). -/
def buf_updates_changedtick (buf : Buf) (channels : List Nat) : List Event :=
  channels.map (fun c =>
    ⟨c, "nvim_buf_changedtick",
     [Obj.bufHandle buf.handle, Obj.int buf.b_changedtick]⟩)

/-- The line-payload strings contained in an event's argument list: the
`Obj.str` entries of each `Obj.arr` argument. -/
def strsOfArr : List Obj → List (List Nat)
  | [] => []
  | Obj.str s :: rest => s :: strsOfArr rest
  | _ :: rest => strsOfArr rest

/-- All line payloads of one event. -/
def linePayloads (e : Event) : List (List Nat) :=
  e.args.foldr
    (fun a acc =>
      (match a with
       | Obj.arr items => strsOfArr items
       | _ => []) ++ acc) []

/-- Count of attach (`nvim_buf_updates_start`) events in a trace. -/
def numAttach (evs : List Event) : Nat :=
  (evs.filter (fun e => e.name == "nvim_buf_updates_start")).length

/-- A concrete buffer for scenario theorems: handle 7, loaded,
changedtick 4, three one-byte lines. -/
def bufEx : Buf := ⟨7, true, 4, [[97], [98], [99]]⟩

/-- A concrete unloaded buffer for witness theorems. -/
def bufUnloaded : Buf := ⟨7, false, 4, []⟩

/-- A concrete buffer whose single line holds an embedded newline byte. -/
def bufNL : Buf := ⟨7, true, 4, [[97, 10, 98]]⟩

lemma not_mem_strchrsub (s : List Nat) : ¬ (10 ∈ strchrsub s) := by
  intro h
  rw [strchrsub, List.mem_map] at h
  obtain ⟨b, _, hb⟩ := h
  by_cases hb10 : b = 10 <;> simp [hb10] at hb

lemma range_map_getD (f : List Nat → Obj) :
    ∀ l : List (List Nat),
      (List.range l.length).map (fun i => f (l.getD i [])) = l.map f := by
  intro l
  induction l with
  | nil => rfl
  | cons a t ih =>
    rw [List.length_cons, List.range_succ_eq_map]
    simp only [List.map_cons, List.map_map, List.getD_cons_zero]
    have hf : ((fun i => f ((a :: t).getD i [])) ∘ Nat.succ) =
        (fun i => f (t.getD i [])) := by
      funext i
      simp [Function.comp, List.getD_cons_succ]
    rw [hf, ih]

lemma ml_get_buf_one_add (buf : Buf) (i : Nat) :
    ml_get_buf buf (1 + (i : Int)) = buf.lines.getD i [] := by
  rw [ml_get_buf]
  congr 1
  omega

lemma register_linedata (buf : Buf) :
    (List.range buf.lines.length).map
      (fun (i : Nat) => Obj.str (strchrsub (ml_get_buf buf (1 + (i : Int))))) =
    buf.lines.map (fun l => Obj.str (strchrsub l)) := by
  have hf : (fun (i : Nat) => Obj.str (strchrsub (ml_get_buf buf (1 + (i : Int))))) =
      (fun (i : Nat) => Obj.str (strchrsub (buf.lines.getD i []))) := by
    funext i
    rw [ml_get_buf_one_add]
  rw [hf]
  exact range_map_getD (fun l => Obj.str (strchrsub l)) buf.lines

lemma removeChannel_fst (l : List Nat) (id : Nat) :
    (removeChannel l id).1 = l.filter (fun c => decide (c ≠ id)) := by
  induction l with
  | nil => rfl
  | cons a t ih =>
    by_cases h : a = id <;>
      simp [removeChannel, h, List.filter_cons, ih]

lemma removeChannel_snd (l : List Nat) (id : Nat) :
    (removeChannel l id).2 = l.countP (fun c => decide (c = id)) := by
  induction l with
  | nil => rfl
  | cons a t ih =>
    by_cases h : a = id <;>
      simp [removeChannel, h, List.countP_cons, ih]

lemma removeChannel_snd_ne_zero (l : List Nat) (id : Nat) :
    (removeChannel l id).2 ≠ 0 ↔ id ∈ l := by
  rw [removeChannel_snd]
  constructor
  · intro h
    rcases List.countP_pos_iff.1 (Nat.pos_of_ne_zero h) with ⟨a, ha, hp⟩
    rw [decide_eq_true_iff] at hp
    rwa [hp] at ha
  · intro h
    have : 0 < l.countP (fun c => decide (c = id)) :=
      List.countP_pos_iff.2 ⟨id, h, by simp⟩
    omega

lemma unregister_events_cases (buf : Buf) (l : List Nat) (x : Nat) :
    (buf_updates_unregister buf l x).2 = [] ∨
    (buf_updates_unregister buf l x).2 = [buf_updates_send_end buf x] := by
  rw [buf_updates_unregister]
  split
  · exact Or.inl rfl
  · dsimp only
    split
    · exact Or.inr rfl
    · exact Or.inl rfl

lemma lastBadChannel_zero (sink : Nat → Bool) :
    ∀ l : List Nat, (∀ c ∈ l, sink c = false → c = 0) →
      lastBadChannel sink l = 0 := by
  intro l
  induction l with
  | nil => intro _; rfl
  | cons a t ih =>
    intro h
    have hstep : (if sink a then 0 else a) = 0 := by
      cases hs : sink a with
      | false => simpa using h a (by simp) hs
      | true => simp
    have ht : ∀ c ∈ t, sink c = false → c = 0 :=
      fun c hc => h c (by simp [hc])
    rw [lastBadChannel, List.foldl_cons, hstep]
    exact ih ht

lemma send_changes_shape (buf : Buf) (channels : List Nat)
    (firstline num_added num_removed : Int) (send_tick : Bool)
    (sink : Nat → Bool) :
    ∃ rest : List Event,
      (buf_updates_send_changes buf channels firstline num_added num_removed
          send_tick sink).2.1 =
        channels.map (fun c => Event.mk c "nvim_buf_update"
          (lines_changed_args buf firstline num_added num_removed send_tick)) ++
          rest ∧
      (rest = [] ∨ ∃ x : Nat, rest = [buf_updates_send_end buf x]) := by
  rw [buf_updates_send_changes]
  split
  · exact ⟨(buf_updates_unregister buf channels
       (lastBadChannel sink channels)).2, rfl,
     Or.imp id (fun h => ⟨lastBadChannel sink channels, h⟩)
       (unregister_events_cases buf channels (lastBadChannel sink channels))⟩
  · exact ⟨[], (List.append_nil _).symm, Or.inl rfl⟩

lemma strsOfArr_map_str (f : Nat → List Nat) :
    ∀ l : List Nat,
      strsOfArr (l.map (fun i => Obj.str (f i))) = l.map f := by
  intro l
  induction l with
  | nil => rfl
  | cons a t ih => simp [strsOfArr, ih]

lemma linePayloads_attach (c : Nat) (nm : String) (h tick : Obj)
    (linedata : List Obj) (b : Obj) :
    linePayloads ⟨c, nm, [h, tick, Obj.arr linedata, b]⟩ =
      (match h with | Obj.arr items => strsOfArr items | _ => []) ++
      ((match tick with | Obj.arr items => strsOfArr items | _ => []) ++
       (strsOfArr linedata ++
        ((match b with | Obj.arr items => strsOfArr items | _ => []) ++ []))) := by
  rfl

lemma not_mem_payload_of_range (g : Nat → List Nat) (n : Nat) :
    ∀ p ∈ strsOfArr ((List.range n).map
        (fun i => Obj.str (strchrsub (g i)))), ¬ (10 ∈ p) := by
  intro p hp
  rw [strsOfArr_map_str (fun i => strchrsub (g i)) (List.range n),
    List.mem_map] at hp
  obtain ⟨i, _, hip⟩ := hp
  rw [← hip]
  exact not_mem_strchrsub (g i)

lemma filter_fanout_length (A : List Obj) (c : Nat) :
    ∀ channels : List Nat,
      ((channels.map (fun x => Event.mk x "nvim_buf_update" A)).filter
        (fun e => e.channel == c && e.name == "nvim_buf_update")).length =
      channels.count c := by
  intro channels
  induction channels with
  | nil => rfl
  | cons a t ih =>
    by_cases h : a = c <;>
      simp [List.filter_cons, List.count_cons, h, ih]

lemma filter_rest_nil (c : Nat) :
    ∀ rest : List Event,
      (∀ e ∈ rest, e.name = "nvim_buf_updates_end") →
      rest.filter (fun e => e.channel == c && e.name == "nvim_buf_update") =
        [] := by
  intro rest
  induction rest with
  | nil => intro _; rfl
  | cons a t ih =>
    intro h
    have ha := h a (by simp)
    rw [List.filter_cons]
    have hcond : (a.channel == c && a.name == "nvim_buf_update") = false := by
      rw [ha]
      simp
    rw [hcond]
    exact ih (fun e he => h e (by simp [he]))

/-- C5: `subscribe(buffer, channel, send_snapshot)` returns false iff the
buffer is not loaded; in that case it emits no event and leaves the
subscriber set unchanged, and in every other case it returns true. -/
theorem register_false_iff_unloaded (buf : Buf) (channels : List Nat)
    (id : Nat) (s : Bool) :
    ((buf_updates_register buf channels id s).1 = false ↔
      buf.loaded = false) ∧
    (buf.loaded = false →
      buf_updates_register buf channels id s = (false, channels, [])) := by
  by_cases hl : buf.loaded = false
  · simp [buf_updates_register, hl]
  · have hl' : buf.loaded = true := by
      revert hl
      cases buf.loaded <;> simp
    by_cases hm : id ∈ channels <;>
      simp [buf_updates_register, hl', hm]

/-- C5 witness: on a concrete unloaded buffer, subscribe returns false,
emits nothing and keeps the subscriber set. -/
theorem register_false_iff_unloaded_witness :
    buf_updates_register bufUnloaded [3] 9 true = (false, [3], []) :=
  (register_false_iff_unloaded bufUnloaded [3] 9 true).2 rfl

/-- C2: a fresh subscription (channel not in the set, buffer loaded)
appends the channel and emits exactly one attach event whose fields are
the buffer handle, the current changedtick, the line-payload array (the
full NL-to-NUL-substituted buffer contents when `send_buffer` is true,
empty otherwise) and the boolean false. -/
theorem register_fresh_attach (buf : Buf) (channels : List Nat) (id : Nat)
    (s : Bool) (hload : buf.loaded = true) (hmem : ¬ (id ∈ channels)) :
    buf_updates_register buf channels id s =
      (true, channels ++ [id],
       [⟨id, "nvim_buf_updates_start",
         [Obj.bufHandle buf.handle, Obj.int buf.b_changedtick,
          Obj.arr (if s then buf.lines.map (fun l => Obj.str (strchrsub l))
                   else []),
          Obj.boolean false]⟩]) := by
  rw [buf_updates_register]
  rw [if_neg (by rw [hload]; simp)]
  rw [if_neg hmem]
  dsimp only
  rw [register_linedata]

/-- C2 witness: fresh subscription on the concrete loaded buffer. -/
theorem register_fresh_attach_witness :
    buf_updates_register bufEx [] 11 true =
      (true, [] ++ [11],
       [⟨11, "nvim_buf_updates_start",
         [Obj.bufHandle bufEx.handle, Obj.int bufEx.b_changedtick,
          Obj.arr (if true then
                     bufEx.lines.map (fun l => Obj.str (strchrsub l))
                   else []),
          Obj.boolean false]⟩]) :=
  register_fresh_attach bufEx [] 11 true rfl (by simp)

/-- C6: subscribe is idempotent: a re-subscribe of a present channel
returns true with no event and no state change; two successive subscribes
yield the same set as one and emit exactly one attach overall. -/
theorem register_idempotent (buf : Buf) (channels : List Nat) (id : Nat)
    (s : Bool) (hload : buf.loaded = true) :
    (id ∈ channels →
      buf_updates_register buf channels id s = (true, channels, [])) ∧
    buf_updates_register buf (buf_updates_register buf channels id s).2.1
        id s =
      (true, (buf_updates_register buf channels id s).2.1, []) ∧
    (¬ (id ∈ channels) →
      numAttach ((buf_updates_register buf channels id s).2.2 ++
        (buf_updates_register buf
          (buf_updates_register buf channels id s).2.1 id s).2.2) = 1) := by
  have hre : ∀ ch : List Nat, id ∈ ch →
      buf_updates_register buf ch id s = (true, ch, []) := by
    intro ch hm
    simp [buf_updates_register, hload, hm]
  have hmem2 : id ∈ (buf_updates_register buf channels id s).2.1 := by
    by_cases hm : id ∈ channels
    · rw [hre channels hm]
      exact hm
    · rw [register_fresh_attach buf channels id s hload hm]
      simp
  refine ⟨hre channels, hre _ hmem2, ?_⟩
  intro hm
  rw [register_fresh_attach buf channels id s hload hm]
  dsimp only
  rw [hre (channels ++ [id]) (by simp)]
  rfl

/-- C6 witness: re-subscribe of 11 is a no-op, and subscribing 11 twice
from the empty set emits exactly one attach. -/
theorem register_idempotent_witness :
    buf_updates_register bufEx [11] 11 true = (true, [11], []) ∧
    buf_updates_register bufEx (buf_updates_register bufEx [] 11 true).2.1
        11 true =
      (true, (buf_updates_register bufEx [] 11 true).2.1, []) ∧
    numAttach ((buf_updates_register bufEx [] 11 true).2.2 ++
      (buf_updates_register bufEx
        (buf_updates_register bufEx [] 11 true).2.1 11 true).2.2) = 1 :=
  ⟨(register_idempotent bufEx [11] 11 true rfl).1 (by simp),
   (register_idempotent bufEx [] 11 true rfl).2.1,
   (register_idempotent bufEx [] 11 true rfl).2.2 (by simp)⟩

/-- C7: `unsubscribe` removes the channel (preserving the order of the
other elements) and emits exactly one detach to it when the channel is
subscribed; otherwise it is a silent no-op with no event and no state
change. -/
theorem unregister_detach_iff_removed (buf : Buf) (channels : List Nat)
    (id : Nat) :
    (id ∈ channels →
      buf_updates_unregister buf channels id =
        (channels.filter (fun c => decide (c ≠ id)),
         [buf_updates_send_end buf id])) ∧
    (¬ (id ∈ channels) →
      buf_updates_unregister buf channels id = (channels, [])) := by
  constructor
  · intro hmem
    have hlen : ¬ (channels.length = 0) := by
      intro h
      rw [List.length_eq_zero] at h
      rw [h] at hmem
      simp at hmem
    have hcnt : (removeChannel channels id).2 ≠ 0 :=
      (removeChannel_snd_ne_zero channels id).2 hmem
    rw [buf_updates_unregister, if_neg hlen]
    dsimp only
    rw [if_pos hcnt, removeChannel_fst]
  · intro hmem
    by_cases hlen : channels.length = 0
    · rw [buf_updates_unregister, if_pos hlen]
    · have hcnt : ¬ ((removeChannel channels id).2 ≠ 0) := by
        intro h
        exact hmem ((removeChannel_snd_ne_zero channels id).1 h)
      rw [buf_updates_unregister, if_neg hlen]
      dsimp only
      rw [if_neg hcnt]

/-- C7 witness: removing 22 from [21, 22, 23] keeps [21, 23] in order and
emits one detach to 22; removing an absent 5 changes nothing and emits
nothing. -/
theorem unregister_detach_iff_removed_witness :
    buf_updates_unregister bufEx [21, 22, 23] 22 =
      ([21, 23], [buf_updates_send_end bufEx 22]) ∧
    buf_updates_unregister bufEx [21, 23] 5 = ([21, 23], []) :=
  ⟨((unregister_detach_iff_removed bufEx [21, 22, 23] 22).1
      (by simp)).trans rfl,
   (unregister_detach_iff_removed bufEx [21, 23] 5).2 (by simp)⟩

/-- C8: `unsubscribe-all` emits one detach to every subscribed channel in
insertion order and empties the set, after which any `unsubscribe` is a
no-op. -/
theorem unregister_all_detaches_every (buf : Buf) (channels : List Nat) :
    buf_updates_unregister_all buf channels =
      ([], channels.map (fun c => buf_updates_send_end buf c)) ∧
    ∀ c : Nat,
      buf_updates_unregister buf
          (buf_updates_unregister_all buf channels).1 c =
        ((buf_updates_unregister_all buf channels).1, []) := by
  have h1 : buf_updates_unregister_all buf channels =
      ([], channels.map (fun c => buf_updates_send_end buf c)) := by
    by_cases h : channels.length = 0
    · rw [List.length_eq_zero] at h
      rw [h]
      rfl
    · rw [buf_updates_unregister_all, if_neg h]
  refine ⟨h1, fun c => ?_⟩
  rw [h1]
  rfl

/-- C8 witness: detach goes to 31 then 32, the set empties, and a
subsequent unsubscribe of 31 is a no-op. -/
theorem unregister_all_detaches_every_witness :
    buf_updates_unregister_all bufEx [31, 32] =
      ([], [buf_updates_send_end bufEx 31, buf_updates_send_end bufEx 32]) ∧
    buf_updates_unregister bufEx
        (buf_updates_unregister_all bufEx [31, 32]).1 31 =
      ((buf_updates_unregister_all bufEx [31, 32]).1, []) :=
  ⟨((unregister_all_detaches_every bufEx [31, 32]).1).trans rfl,
   (unregister_all_detaches_every bufEx [31, 32]).2 31⟩

/-- C9: one `publish-lines` call emits exactly one lines-changed event to
each channel subscribed at the start of the call, in insertion order; the
trace is the in-order fan-out followed only by the deferred removal's
detach (no structural mutation during the iteration). -/
theorem send_changes_once_each (buf : Buf) (channels : List Nat)
    (firstline num_added num_removed : Int) (send_tick : Bool)
    (sink : Nat → Bool) (hnd : channels.Nodup) :
    (∃ rest : List Event,
      (buf_updates_send_changes buf channels firstline num_added num_removed
          send_tick sink).2.1 =
        channels.map (fun c => Event.mk c "nvim_buf_update"
          (lines_changed_args buf firstline num_added num_removed send_tick))
          ++ rest ∧
      ∀ e ∈ rest, e.name = "nvim_buf_updates_end") ∧
    ∀ c ∈ channels,
      (((buf_updates_send_changes buf channels firstline num_added
          num_removed send_tick sink).2.1).filter
        (fun e => e.channel == c && e.name == "nvim_buf_update")).length
        = 1 := by
  obtain ⟨rest, hsh, hrest⟩ := send_changes_shape buf channels firstline
    num_added num_removed send_tick sink
  have hname : ∀ e ∈ rest, e.name = "nvim_buf_updates_end" := by
    rcases hrest with h | ⟨x, h⟩
    · rw [h]
      intro e he
      simp at he
    · rw [h]
      intro e he
      rw [List.mem_singleton] at he
      rw [he]
      rfl
  refine ⟨⟨rest, hsh, hname⟩, fun c hc => ?_⟩
  rw [hsh, List.filter_append, List.length_append,
    filter_rest_nil c rest hname, filter_fanout_length]
  simp [List.count_eq_one_of_mem hnd hc]

/-- C9 witness: with subscribers [21, 22, 23] and a successful sink,
channel 22 receives exactly one lines-changed event. -/
theorem send_changes_once_each_witness :
    (((buf_updates_send_changes bufEx [21, 22, 23] 2 1 1 true
        (fun _ => true)).2.1).filter
      (fun e => e.channel == 22 && e.name == "nvim_buf_update")).length
      = 1 :=
  (send_changes_once_each bufEx [21, 22, 23] 2 1 1 true (fun _ => true)
    (by decide)).2 22 (by decide)

/-- C3: every lines-changed event of a `publish-lines` call reports
changedtick or the null sentinel in field 1 according to `send_tick`,
`firstline - 1` in field 2, `firstline - 1 + num_removed` in field 3, and
in field 4 an array of exactly `num_added` payloads (empty when
`num_added ≤ 0`) whose i-th entry is the substituted contents of buffer
line `firstline + i`. -/
theorem send_changes_event_fields (buf : Buf) (channels : List Nat)
    (firstline num_added num_removed : Int) (send_tick : Bool)
    (sink : Nat → Bool) (e : Event)
    (he : e ∈ (buf_updates_send_changes buf channels firstline num_added
        num_removed send_tick sink).2.1)
    (hname : e.name = "nvim_buf_update") :
    e.args.getD 1 Obj.nil =
      (if send_tick then Obj.int buf.b_changedtick else Obj.nil) ∧
    e.args.getD 2 Obj.nil = Obj.int (firstline - 1) ∧
    e.args.getD 3 Obj.nil = Obj.int (firstline - 1 + num_removed) ∧
    ∃ linedata : List Obj,
      e.args.getD 4 Obj.nil = Obj.arr linedata ∧
      linedata.length = (if 0 < num_added then num_added.toNat else 0) ∧
      ∀ i : Nat, i < linedata.length →
        linedata.getD i Obj.nil =
          Obj.str (strchrsub (ml_get_buf buf (firstline + (i : Int)))) := by
  obtain ⟨rest, hsh, hrest⟩ := send_changes_shape buf channels firstline
    num_added num_removed send_tick sink
  rw [hsh] at he
  rcases List.mem_append.1 he with hf | hr
  · obtain ⟨c, _, hce⟩ := List.mem_map.1 hf
    rw [← hce]
    refine ⟨by simp [lines_changed_args], by simp [lines_changed_args],
      by simp [lines_changed_args],
      (if 0 < num_added then
        (List.range num_added.toNat).map
          (fun (i : Nat) =>
            Obj.str (strchrsub (ml_get_buf buf (firstline + (i : Int)))))
       else []), by simp [lines_changed_args], ?_, ?_⟩
    · by_cases hna : 0 < num_added <;> simp [hna]
    · intro i hi
      by_cases hna : 0 < num_added
      · rw [if_pos hna] at hi ⊢
        rw [List.length_map, List.length_range] at hi
        rw [List.getD_eq_getElem _ _ (by simpa using hi),
          List.getElem_map, List.getElem_range]
      · rw [if_neg hna] at hi
        simp at hi
  · exfalso
    have hend : e.name = "nvim_buf_updates_end" := by
      rcases hrest with h | ⟨x, h⟩
      · rw [h] at hr
        simp at hr
      · rw [h] at hr
        rw [List.mem_singleton] at hr
        rw [hr]
        rfl
    rw [hname] at hend
    exact absurd hend (by decide)

/-- C3 witness: the concrete event emitted by publish-lines on the
example buffer carries fields 1..4 as specified. -/
theorem send_changes_event_fields_witness :
    (Event.mk 11 "nvim_buf_update"
        (lines_changed_args bufEx 2 1 1 true)).args.getD 1 Obj.nil =
      (if true then Obj.int bufEx.b_changedtick else Obj.nil) ∧
    (Event.mk 11 "nvim_buf_update"
        (lines_changed_args bufEx 2 1 1 true)).args.getD 2 Obj.nil =
      Obj.int (2 - 1) ∧
    (Event.mk 11 "nvim_buf_update"
        (lines_changed_args bufEx 2 1 1 true)).args.getD 3 Obj.nil =
      Obj.int (2 - 1 + 1) :=
  ⟨(send_changes_event_fields bufEx [11] 2 1 1 true (fun _ => true)
      (Event.mk 11 "nvim_buf_update" (lines_changed_args bufEx 2 1 1 true))
      (by exact List.Mem.head _) rfl).1,
   (send_changes_event_fields bufEx [11] 2 1 1 true (fun _ => true)
      (Event.mk 11 "nvim_buf_update" (lines_changed_args bufEx 2 1 1 true))
      (by exact List.Mem.head _) rfl).2.1,
   (send_changes_event_fields bufEx [11] 2 1 1 true (fun _ => true)
      (Event.mk 11 "nvim_buf_update" (lines_changed_args bufEx 2 1 1 true))
      (by exact List.Mem.head _) rfl).2.2.1⟩

lemma linePayloads_lines_changed (c : Nat) (buf : Buf)
    (firstline num_added num_removed : Int) (send_tick : Bool) :
    linePayloads ⟨c, "nvim_buf_update",
      lines_changed_args buf firstline num_added num_removed send_tick⟩ =
    strsOfArr (if 0 < num_added then
        (List.range num_added.toNat).map
          (fun (i : Nat) =>
            Obj.str (strchrsub (ml_get_buf buf (firstline + (i : Int)))))
      else []) := by
  cases send_tick <;>
    simp [linePayloads, lines_changed_args]

/-- C4: every line payload emitted in any attach or lines-changed event is
the NL-to-NUL substituted copy of a buffer line and so contains no 0x0A
byte. -/
theorem payloads_no_newline (buf : Buf) (channels : List Nat) (id : Nat)
    (s : Bool) (firstline num_added num_removed : Int) (send_tick : Bool)
    (sink : Nat → Bool) :
    (∀ e ∈ (buf_updates_register buf channels id s).2.2,
      ∀ p ∈ linePayloads e, ¬ (10 ∈ p)) ∧
    (∀ e ∈ (buf_updates_send_changes buf channels firstline num_added
        num_removed send_tick sink).2.1,
      ∀ p ∈ linePayloads e, ¬ (10 ∈ p)) := by
  constructor
  · intro e he p hp
    rw [buf_updates_register] at he
    by_cases hl : buf.loaded = false
    · rw [if_pos hl] at he
      simp at he
    · rw [if_neg hl] at he
      by_cases hm : id ∈ channels
      · rw [if_pos hm] at he
        simp at he
      · rw [if_neg hm] at he
        dsimp only at he
        rw [List.mem_singleton] at he
        subst he
        simp only [linePayloads, List.foldr_cons, List.foldr_nil,
          List.append_nil, List.nil_append] at hp
        cases s with
        | false => simp [strsOfArr] at hp
        | true =>
          rw [if_pos rfl] at hp
          exact not_mem_payload_of_range
            (fun i => ml_get_buf buf (1 + (i : Int)))
            buf.lines.length p hp
  · intro e he p hp
    obtain ⟨rest, hsh, hrest⟩ := send_changes_shape buf channels firstline
      num_added num_removed send_tick sink
    rw [hsh] at he
    rcases List.mem_append.1 he with hf | hr
    · obtain ⟨c, _, hce⟩ := List.mem_map.1 hf
      rw [← hce] at hp
      rw [linePayloads_lines_changed] at hp
      by_cases hna : 0 < num_added
      · rw [if_pos hna] at hp
        exact not_mem_payload_of_range
          (fun i => ml_get_buf buf (firstline + (i : Int)))
          num_added.toNat p hp
      · rw [if_neg hna] at hp
        simp [strsOfArr] at hp
    · rcases hrest with h | ⟨x, h⟩
      · rw [h] at hr
        simp at hr
      · rw [h] at hr
        rw [List.mem_singleton] at hr
        rw [hr] at hp
        simp [linePayloads, buf_updates_send_end, strsOfArr] at hp

/-- C4 witness: the attach snapshot of a buffer whose line holds an
embedded newline byte carries the payload with that byte replaced by NUL,
and 0x0A is absent from it. -/
theorem payloads_no_newline_witness :
    ¬ (10 ∈ ([97, 0, 98] : List Nat)) :=
  (payloads_no_newline bufNL [] 11 true 2 1 1 true (fun _ => true)).1
    ⟨11, "nvim_buf_updates_start",
      [Obj.bufHandle 7, Obj.int 4, Obj.arr [Obj.str [97, 0, 98]],
       Obj.boolean false]⟩
    (by exact List.Mem.head _)
    [97, 0, 98]
    (by exact List.Mem.head _)

/-- C10: when every failed delivery of a fan-out goes to channel id 0, the
0 sentinel hides the dead channel: no channel is unsubscribed, nothing is
logged, and the trace is the bare fan-out. -/
theorem zero_channel_never_reaped (buf : Buf) (channels : List Nat)
    (firstline num_added num_removed : Int) (send_tick : Bool)
    (sink : Nat → Bool)
    (h : ∀ c ∈ channels, sink c = false → c = 0) :
    (buf_updates_send_changes buf channels firstline num_added num_removed
        send_tick sink).1 = channels ∧
    (buf_updates_send_changes buf channels firstline num_added num_removed
        send_tick sink).2.2 = [] ∧
    (buf_updates_send_changes buf channels firstline num_added num_removed
        send_tick sink).2.1 =
      channels.map (fun c => Event.mk c "nvim_buf_update"
        (lines_changed_args buf firstline num_added num_removed
          send_tick)) := by
  have hb : lastBadChannel sink channels = 0 :=
    lastBadChannel_zero sink channels h
  refine ⟨?_, ?_, ?_⟩ <;>
  · rw [buf_updates_send_changes, hb]
    dsimp only
    rw [if_neg (fun h0 => h0 rfl)]

/-- C10 witness: subscribers [0, 5] with the sink failing only for channel
0: the set, the log and the trace show no reaping. -/
theorem zero_channel_never_reaped_witness :
    (buf_updates_send_changes bufEx [0, 5] 2 1 1 true
        (fun c => decide (¬ (c = 0)))).1 = [0, 5] ∧
    (buf_updates_send_changes bufEx [0, 5] 2 1 1 true
        (fun c => decide (¬ (c = 0)))).2.2 = [] ∧
    (buf_updates_send_changes bufEx [0, 5] 2 1 1 true
        (fun c => decide (¬ (c = 0)))).2.1 =
      [0, 5].map (fun c => Event.mk c "nvim_buf_update"
        (lines_changed_args bufEx 2 1 1 true)) :=
  zero_channel_never_reaped bufEx [0, 5] 2 1 1 true
    (fun c => decide (¬ (c = 0))) (by decide)

/-- C1 counterexample: with subscribers [21, 22, 23] and the sink failing
for both 22 and 23, the code unsubscribes 23, not 22: the set becomes
[21, 22] rather than [21, 23] and 23 does not remain subscribed,
contrary to the claim's scenario. -/
theorem send_changes_two_dead_counterexample :
    (buf_updates_send_changes bufEx [21, 22, 23] 2 1 1 true
        (fun c => decide (c = 21))).1 = [21, 22] ∧
    ¬ (23 ∈ (buf_updates_send_changes bufEx [21, 22, 23] 2 1 1 true
        (fun c => decide (c = 21))).1) ∧
    ¬ ((buf_updates_send_changes bufEx [21, 22, 23] 2 1 1 true
        (fun c => decide (c = 21))).1 = [21, 23]) := by
  refine ⟨rfl, ?_, ?_⟩ <;> decide

/-- C1 amended: the fan-out always attempts delivery to all subscribers
and exactly one channel is then unsubscribed: the last one in iteration
order whose delivery failed.  With subscribers [21, 22, 23] and only 22
failing, 22 is detached and the set becomes [21, 23]; if 23 also failed,
23 is the channel detached and 22 remains subscribed until the next
fan-out. -/
theorem send_changes_dead_channel_reaped :
    ((buf_updates_send_changes bufEx [21, 22, 23] 2 1 1 true
        (fun c => decide (¬ (c = 22)))).1 = [21, 23] ∧
     (buf_updates_send_changes bufEx [21, 22, 23] 2 1 1 true
        (fun c => decide (¬ (c = 22)))).2.1 =
       [Event.mk 21 "nvim_buf_update" (lines_changed_args bufEx 2 1 1 true),
        Event.mk 22 "nvim_buf_update" (lines_changed_args bufEx 2 1 1 true),
        Event.mk 23 "nvim_buf_update" (lines_changed_args bufEx 2 1 1 true),
        buf_updates_send_end bufEx 22]) ∧
    ((buf_updates_send_changes bufEx [21, 22, 23] 2 1 1 true
        (fun c => decide (c = 21))).1 = [21, 22] ∧
     (buf_updates_send_changes bufEx [21, 22, 23] 2 1 1 true
        (fun c => decide (c = 21))).2.1 =
       [Event.mk 21 "nvim_buf_update" (lines_changed_args bufEx 2 1 1 true),
        Event.mk 22 "nvim_buf_update" (lines_changed_args bufEx 2 1 1 true),
        Event.mk 23 "nvim_buf_update" (lines_changed_args bufEx 2 1 1 true),
        buf_updates_send_end bufEx 23]) :=
  ⟨⟨rfl, rfl⟩, ⟨rfl, rfl⟩⟩
